import Mathlib

/-!
Shallow embedding of the request-governance layer of the pet-detective
repository: the sliding-window rate limiter, the error taxonomy and
error-response builder of `api/utils/error_handler.py`, and the input
validation routines of `api/validation.py`.  Python dictionaries are
modelled as association lists, machine time as `Int`, byte strings as
`List Nat`, and raised exceptions as `Except` results.
-/

namespace PetDetective

/-! ## Rate limiter (`api/utils/error_handler.py`, `check_rate_limit`) -/

/-- Security audit event as produced by `log_security_event` for the
`RATE_LIMIT_EXCEEDED` case: event type, severity, and the details dict
(client ip, endpoint, request count, limit). -/
structure AuditEvent where
  event_type : String
  severity : String
  client_ip : String
  endpoint : String
  request_count : Nat
  lim : Nat
deriving DecidableEq

/-- Global mutable state of the limiter: the module-level dictionaries
`request_counts` (client ip to list of request timestamps) and
`blocked_ips` (client ip to block-expiry timestamp), modelled as
association lists in insertion order. -/
structure RLState where
  request_counts : List (String × List Int)
  blocked_ips : List (String × Int)
deriving DecidableEq

/-- Set a key in an association list: overwrite in place when present,
append at the end when absent (Python dict assignment semantics). -/
def alistSet (k : String) (v : α) : List (String × α) → List (String × α)
  | [] => [(k, v)]
  | p :: rest => if p.1 = k then (k, v) :: rest else p :: alistSet k v rest

/-- Delete a key from an association list (Python `del d[k]`). -/
def alistErase (k : String) (l : List (String × α)) : List (String × α) :=
  l.filter (fun p => p.1 != k)

/-- The cleanup loop of `check_rate_limit`: for every ip, keep only the
timestamps with `req_time > window_start`, and delete entries whose list
becomes empty. -/
def pruneCounts (window_start : Int) (rc : List (String × List Int)) :
    List (String × List Int) :=
  (rc.map (fun p => (p.1, p.2.filter (fun ts => decide (window_start < ts))))).filter
    (fun p => !p.2.isEmpty)

/-- Second half of `check_rate_limit`, after the blocked-ip check: append
the current time to the window of the client, and compare the resulting
count with the limit; on overflow, block the ip for 3600 seconds (the
hard-coded block duration) and emit the HIGH-severity audit event. -/
def countAndDecide (lim : Nat) (client endpoint : String) (t : Int)
    (rc : List (String × List Int)) (bl : List (String × Int)) :
    Bool × RLState × List AuditEvent :=
  let prev := (List.lookup client rc).getD []
  let newTimes := prev ++ [t]
  let rc2 := alistSet client newTimes rc
  if decide (newTimes.length > lim) then
    (false, ⟨rc2, alistSet client (t + 3600) bl⟩,
      [⟨"RATE_LIMIT_EXCEEDED", "HIGH", client, endpoint, newTimes.length, lim⟩])
  else
    (true, ⟨rc2, bl⟩, [])

/-- Embedding of `check_rate_limit(client_ip, endpoint, limit, window)`
at time `t`: prune all windows, honour an unexpired block entry (strict
comparison `blocked_ips[client_ip] > current_time`), delete an expired
one, then count and decide.  Returns the boolean result, the new global
state, and the emitted audit events. -/
def check_rate_limit (lim : Nat) (window : Int) (client endpoint : String)
    (t : Int) (st : RLState) : Bool × RLState × List AuditEvent :=
  let window_start := t - window
  let rc := pruneCounts window_start st.request_counts
  match List.lookup client st.blocked_ips with
  | some expiry =>
      if t < expiry then (false, ⟨rc, st.blocked_ips⟩, [])
      else countAndDecide lim client endpoint t rc (alistErase client st.blocked_ips)
  | none => countAndDecide lim client endpoint t rc st.blocked_ips

/-- Run a sequence of `check_rate_limit` calls (same client, endpoint,
limit and window) at the given list of times, threading the state and
collecting the per-call results and all audit events. -/
def runCalls (lim : Nat) (window : Int) (client endpoint : String) :
    List Int → RLState → List Bool × RLState × List AuditEvent
  | [], st => ([], st, [])
  | t :: rest, st =>
    let r1 := check_rate_limit lim window client endpoint t st
    let r2 := runCalls lim window client endpoint rest r1.2.1
    (r1.1 :: r2.1, r2.2.1, r1.2.2 ++ r2.2.2)

/-- State holding a single-client window `acc` (absent when empty) and no
block entries; the shape reached by fresh traffic from one client. -/
def stateOf (client : String) (acc : List Int) : RLState :=
  ⟨if acc.isEmpty then [] else [(client, acc)], []⟩

/-! ## Error taxonomy (`api/utils/error_handler.py`, classes `APIError` ff.) -/

/-- Python class tag of an `APIError` instance, needed because
`create_error_response` tests `isinstance(error, ValidationError)`. -/
inductive ErrKind
  | base
  | validationKind
  | authenticationKind
  | authorizationKind
  | notFoundKind
  | rateLimitKind
  | securityKind
deriving DecidableEq

/-- An instance of `APIError` or one of its subclasses: message, HTTP
status code, machine error code, and (for `ValidationError`) the
optional field name. -/
structure APIErrorVal where
  kind : ErrKind
  message : String
  status_code : Nat
  error_code : String
  field : Option String
deriving DecidableEq

/-- Constructor `APIError(message, status_code, error_code)`; a missing
or empty error code falls back to INTERNAL_ERROR (`error_code or
'INTERNAL_ERROR'`). -/
def mkAPIError (message : String) (status_code : Nat) (error_code : Option String) :
    APIErrorVal :=
  ⟨ErrKind.base, message, status_code,
    (match error_code with
     | some c => if c = "" then "INTERNAL_ERROR" else c
     | none => "INTERNAL_ERROR"), none⟩

/-- Constructor `ValidationError(message, field)`: status 400, code VALIDATION_ERROR. -/
def mkValidationErrorH (message : String) (field : Option String) : APIErrorVal :=
  ⟨ErrKind.validationKind, message, 400, "VALIDATION_ERROR", field⟩

/-- Constructor `AuthenticationError(message)`: status 401, code AUTH_ERROR. -/
def mkAuthenticationError (message : String) : APIErrorVal :=
  ⟨ErrKind.authenticationKind, message, 401, "AUTH_ERROR", none⟩

/-- Constructor `AuthorizationError(message)`: status 403, code PERMISSION_ERROR. -/
def mkAuthorizationError (message : String) : APIErrorVal :=
  ⟨ErrKind.authorizationKind, message, 403, "PERMISSION_ERROR", none⟩

/-- Constructor `ResourceNotFoundError(message)`: status 404, code NOT_FOUND. -/
def mkResourceNotFoundError (message : String) : APIErrorVal :=
  ⟨ErrKind.notFoundKind, message, 404, "NOT_FOUND", none⟩

/-- Constructor `RateLimitError(message)`: status 429, code RATE_LIMIT. -/
def mkRateLimitError (message : String) : APIErrorVal :=
  ⟨ErrKind.rateLimitKind, message, 429, "RATE_LIMIT", none⟩

/-- Constructor `SecurityError(message)`: status 403, code SECURITY_ERROR. -/
def mkSecurityError (message : String) : APIErrorVal :=
  ⟨ErrKind.securityKind, message, 403, "SECURITY_ERROR", none⟩

/-- Default-argument instance `RateLimitError()`. -/
def rateLimitErrorDefault : APIErrorVal := mkRateLimitError "Rate limit exceeded"

/-- Default-argument instance `ResourceNotFoundError()`. -/
def resourceNotFoundErrorDefault : APIErrorVal :=
  mkResourceNotFoundError "Resource not found"

/-- An exception reaching `create_error_response`: either an `APIError`
instance or any other exception (carrying only its text). -/
inductive Exc
  | api (e : APIErrorVal)
  | other (message : String)
deriving DecidableEq

/-- JSON-ish value stored in the response dict. -/
inductive JVal
  | s (v : String)
  | n (v : Nat)
deriving DecidableEq

/-- Python truthiness of an optional string (`if request_id:` and
`if error.field:`): present and non-empty. -/
def optTruthy : Option String → Bool
  | none => false
  | some s => s != ""

/-- Embedding of `create_error_response(error, request_id)`: builds the
response dict (modelled as an association list in insertion order) and
returns it with the HTTP status code.  The timestamp string is passed in
as a parameter in place of `datetime.utcnow().isoformat()`. -/
def create_error_response (error : Exc) (request_id : Option String)
    (timestamp : String) : List (String × JVal) × Nat :=
  let base : List (String × JVal) × Nat :=
    match error with
    | Exc.api e =>
      let r0 := [("error", JVal.s e.message), ("error_code", JVal.s e.error_code),
                 ("status_code", JVal.n e.status_code)]
      let r1 := if e.kind = ErrKind.validationKind ∧ optTruthy e.field then
                  r0 ++ [("field", JVal.s (e.field.getD ""))]
                else r0
      (r1, e.status_code)
    | Exc.other _ =>
      ([("error", JVal.s "Internal server error"),
        ("error_code", JVal.s "INTERNAL_ERROR"),
        ("status_code", JVal.n 500)], 500)
  let r2 := if optTruthy request_id then
              base.1 ++ [("request_id", JVal.s (request_id.getD ""))]
            else base.1
  (r2 ++ [("timestamp", JVal.s timestamp)], base.2)

/-- The 404 handler registered by `register_error_handlers`: it builds
the response for a default `ResourceNotFoundError` with no request id. -/
def not_found_handler (timestamp : String) : List (String × JVal) × Nat :=
  create_error_response (Exc.api resourceNotFoundErrorDefault) none timestamp

/-- Whether a field entry is added to the envelope for this exception. -/
def fieldExpected : Exc → Bool
  | Exc.api e => decide (e.kind = ErrKind.validationKind) && optTruthy e.field
  | Exc.other _ => false

/-! ## Message sanitizer (`api/utils/error_handler.py`, `sanitize_error_message`)

The six patterns of `sensitive_patterns` are substituted in order with
`re.sub(pattern, "[REDACTED]", s, flags=re.IGNORECASE)`.  Each pattern is
deterministic (greedy runs followed by literals outside the run class),
so each is embedded as a function returning the length of the match at
the head of the input, if any. -/

/-- Number of leading characters satisfying `p` (a greedy character-class run). -/
def countWhile (p : Char → Bool) : List Char → Nat
  | [] => 0
  | c :: rest => if p c then countWhile p rest + 1 else 0

/-- Python regex class `\s`, restricted to its ASCII part (the inputs in
question are ASCII). -/
def isPySpace (c : Char) : Bool :=
  [' ', '\t', '\n', '\r', Char.ofNat 11, Char.ofNat 12].contains c

/-- Case-insensitive comparison of a lowercase keyword against the head
of the input, character by character. -/
def ciPrefixOf : List Char → List Char → Bool
  | [], _ => true
  | _ :: _, [] => false
  | a :: as, b :: bs => (a == b.toLower) && ciPrefixOf as bs

/-- Matcher for `kw[=:]\s*\S+` under IGNORECASE, where `kw` is one of
password, token, key, secret: the keyword, one of `=` or `:`, a greedy
run of whitespace, then a nonempty greedy run of non-whitespace. -/
def matchKeyValue (kw : List Char) (s : List Char) : Option Nat :=
  if ciPrefixOf kw s then
    match s.drop kw.length with
    | c :: rest =>
      if c == '=' || c == ':' then
        let w := countWhile isPySpace rest
        let nw := countWhile (fun d => !(isPySpace d)) (rest.drop w)
        if nw > 0 then some (kw.length + 1 + w + nw) else none
      else none
    | [] => none
  else none

/-- Characters of the path-segment class `[a-zA-Z0-9_\-]`. -/
def isSegChar (c : Char) : Bool :=
  c.isAlpha || c.isDigit || c == '_' || c == '-'

/-- Matcher for the file-path pattern `/[a-zA-Z0-9_\-]+/[a-zA-Z0-9_\-]+\.py`
(IGNORECASE makes the trailing letters case-insensitive): two nonempty
slash-separated segments followed by a `.py` suffix. -/
def matchPyPath (s : List Char) : Option Nat :=
  match s with
  | '/' :: r1 =>
    let n1 := countWhile isSegChar r1
    if n1 = 0 then none
    else
      match r1.drop n1 with
      | '/' :: r2 =>
        let n2 := countWhile isSegChar r2
        if n2 = 0 then none
        else
          match r2.drop n2 with
          | '.' :: p :: y :: _ =>
            if p.toLower == 'p' && y.toLower == 'y' then some (n1 + n2 + 5) else none
          | _ => none
      | _ => none
  | _ => none

/-- Matcher for `line \d+` under IGNORECASE: the word line, one space,
then a nonempty greedy run of digits. -/
def matchLineNum (s : List Char) : Option Nat :=
  if ciPrefixOf ['l', 'i', 'n', 'e'] s then
    match s.drop 4 with
    | ' ' :: r =>
      let nd := countWhile Char.isDigit r
      if nd > 0 then some (5 + nd) else none
    | _ => none
  else none

/-- Fuel-indexed core of `re.sub`: scan left to right, replace each
leftmost non-overlapping match and continue after it, otherwise copy one
character.  The fuel only needs to dominate the input length; every
match consumes at least one character. -/
def substFuel (m : List Char → Option Nat) (repl : List Char) :
    Nat → List Char → List Char
  | 0, s => s
  | _ + 1, [] => []
  | fuel + 1, c :: rest =>
    match m (c :: rest) with
    | some (n + 1) => repl ++ substFuel m repl fuel ((c :: rest).drop (n + 1))
    | _ => c :: substFuel m repl fuel rest

/-- Replacement of every match of `m` by `repl` (the `re.sub` call). -/
def subst (m : List Char → Option Nat) (repl : List Char) (s : List Char) :
    List Char :=
  substFuel m repl s.length s

/-- Embedding of `sanitize_error_message`, applied to the text of the
exception: substitute the six sensitive patterns in order, each replaced
by the marker `[REDACTED]`. -/
def sanitize_error_message (s : String) : String :=
  let r := "[REDACTED]".toList
  let l1 := subst (matchKeyValue "password".toList) r s.toList
  let l2 := subst (matchKeyValue "token".toList) r l1
  let l3 := subst (matchKeyValue "key".toList) r l2
  let l4 := subst (matchKeyValue "secret".toList) r l3
  let l5 := subst matchPyPath r l4
  let l6 := subst matchLineNum r l5
  String.mk l6

/-- Substring occurrence test used to state the sanitizer claims. -/
def containsSub (needle : List Char) : List Char → Bool
  | [] => needle.isEmpty
  | c :: rest => needle.isPrefixOf (c :: rest) || containsSub needle rest

/-! ## Input validation (`api/validation.py`, class `APIValidator`) -/

/-- The `ValidationError` exception of `api/validation.py`: message and
optional field name. -/
structure VErr where
  message : String
  field : Option String
deriving DecidableEq

/-- Character kept by the control-character filter of `sanitize_string`:
`ord(char) >= 32 or char in (tab, newline, carriage return)`. -/
def keepChar (c : Char) : Bool :=
  decide (32 ≤ c.toNat) || c == '\t' || c == '\n' || c == '\r'

/-- Characters removed from the ends by Python `str.strip()`.  Python
strips every Unicode whitespace character; the set below lists the ASCII
ones plus the common Unicode space characters.  The theorems below do
not depend on the exact extent of this set. -/
def isStripSpace (c : Char) : Bool :=
  [' ', '\t', '\n', '\r', Char.ofNat 11, Char.ofNat 12, Char.ofNat 0x85,
    Char.ofNat 0xa0].contains c
  || (decide (0x2000 ≤ c.toNat) && decide (c.toNat ≤ 0x200a))
  || decide (c.toNat = 0x1680) || decide (c.toNat = 0x2028)
  || decide (c.toNat = 0x2029) || decide (c.toNat = 0x202f)
  || decide (c.toNat = 0x205f) || decide (c.toNat = 0x3000)

/-- Python `str.strip()` on a character list: drop stripped whitespace
from the right end, then from the left end. -/
def pyStrip (l : List Char) : List Char :=
  ((l.reverse.dropWhile isStripSpace).reverse).dropWhile isStripSpace

/-- Characters rejected by `sanitize_string` when special characters are
not allowed: the regex class of `<`, `>`, double quote, single quote
(code point 39) and ampersand. -/
def isSpecialChar (c : Char) : Bool :=
  ['<', '>', '"', Char.ofNat 39, '&'].contains c

/-- Embedding of `APIValidator.sanitize_string(value, max_length,
allow_special)`: filter control characters, strip surrounding
whitespace, reject over-long results, and reject special characters
unless allowed. -/
def sanitize_string (value : String) (max_length : Nat) (allow_special : Bool) :
    Except VErr String :=
  let v1 := value.toList.filter keepChar
  let v2 := pyStrip v1
  if decide (v2.length > max_length) then
    Except.error ⟨"String too long (max " ++ toString max_length ++ " characters)", none⟩
  else if !allow_special && v2.any isSpecialChar then
    Except.error ⟨"String contains invalid characters", none⟩
  else
    Except.ok (String.mk v2)

/-- Characters of the class of `FILENAME_PATTERN`: `[a-zA-Z0-9._-]`. -/
def filenameChar (c : Char) : Bool :=
  c.isAlpha || c.isDigit || c == '.' || c == '_' || c == '-'

/-- Python `re.match` against `FILENAME_PATTERN`, which is
anchored `[a-zA-Z0-9._-]+` up to the end of the string; a Python `$`
also matches just before one trailing newline. -/
def filenameMatches (s : String) : Bool :=
  let l := s.toList
  (!l.isEmpty && l.all filenameChar)
  || (match l.getLast? with
      | some c =>
        c == '\n' && (!(l.dropLast).isEmpty && (l.dropLast).all filenameChar)
      | none => false)

/-- The table `ALLOWED_IMAGE_TYPES` of mime type to magic-number list,
in dict insertion order, with byte strings as lists of byte values. -/
def ALLOWED_IMAGE_TYPES : List (String × List (List Nat)) :=
  [("image/jpeg", [[0xff, 0xd8, 0xff]]),
   ("image/png", [[0x89, 0x50, 0x4e, 0x47, 0x0d, 0x0a, 0x1a, 0x0a]]),
   ("image/webp", [[0x52, 0x49, 0x46, 0x46], [0x57, 0x45, 0x42, 0x50]]),
   ("image/bmp", [[0x42, 0x4d]]),
   ("image/gif", [[0x47, 0x49, 0x46, 0x38, 0x37, 0x61], [0x47, 0x49, 0x46, 0x38, 0x39, 0x61]])]

/-- The magic-number loop of `validate_image_file`: the first mime type
one of whose listed byte strings is a prefix of the content
(`file_content.startswith(magic_num)`). -/
def detectImageType (content : List Nat) : Option String :=
  (ALLOWED_IMAGE_TYPES.find? (fun p => p.2.any (fun m => m.isPrefixOf content))).map
    (fun p => p.1)

/-- The `expected_extensions` dict of `validate_image_file`. -/
def expected_extensions : List (String × List String) :=
  [("image/jpeg", ["jpg", "jpeg"]),
   ("image/png", ["png"]),
   ("image/webp", ["webp"]),
   ("image/bmp", ["bmp"]),
   ("image/gif", ["gif"])]

/-- Lowercasing as Python `str.lower()` on ASCII data. -/
def pyLowerList (l : List Char) : List Char := l.map Char.toLower

/-- Python `str.split(sep)` for a single-character separator. -/
def splitOnChar (sep : Char) : List Char → List (List Char)
  | [] => [[]]
  | c :: rest =>
    let r := splitOnChar sep rest
    if c == sep then [] :: r
    else
      match r with
      | h :: t => (c :: h) :: t
      | [] => [[c]]

/-- The extension computation of `validate_image_file`:
`filename.lower().split(".")[-1] if "." in filename else ""`. -/
def fileExt (filename : String) : String :=
  if filename.toList.contains '.' then
    String.mk ((splitOnChar '.' (pyLowerList filename.toList)).getLastD [])
  else ""

/-- Maximum image size `MAX_IMAGE_SIZE` (10 MiB). -/
def MAX_IMAGE_SIZE : Nat := 10 * 1024 * 1024

/-- Embedding of `APIValidator.validate_image_file` for a file with the
given filename and content bytes: filename sanitization and pattern
check, emptiness and size checks, magic-number detection, and the
extension/content agreement check; returns the sanitized filename and
the content on success. -/
def validate_image_file (filename0 : String) (content : List Nat) :
    Except VErr (String × List Nat) :=
  if filename0 = "" then Except.error ⟨"No filename provided", none⟩
  else
    match sanitize_string filename0 255 false with
    | Except.error e => Except.error e
    | Except.ok filename =>
      if !filenameMatches filename then
        Except.error ⟨"Invalid filename format", none⟩
      else if content.length = 0 then Except.error ⟨"Empty file", none⟩
      else if decide (content.length > MAX_IMAGE_SIZE) then
        Except.error ⟨"File too large (max " ++ toString (MAX_IMAGE_SIZE / 1024 / 1024)
          ++ "MB)", none⟩
      else
        match detectImageType content with
        | none => Except.error ⟨"Invalid image file format", none⟩
        | some detected_type =>
          match List.lookup detected_type expected_extensions with
          | some exts =>
            if !(exts.contains (fileExt filename)) then
              Except.error ⟨"File extension does not match content type", none⟩
            else Except.ok (filename, content)
          | none => Except.ok (filename, content)

/-- Normalization applied by `validate_animal_type` to a non-null value:
`animal_type.lower().strip()`. -/
def normalizeAnimal (s : String) : String :=
  String.mk (pyStrip (pyLowerList s.toList))

/-- Embedding of `APIValidator.validate_animal_type`: a null filter is
returned unchanged; otherwise the value is lowercased and stripped and
must be dog or cat. -/
def validate_animal_type (animal_type : Option String) :
    Except VErr (Option String) :=
  match animal_type with
  | none => Except.ok none
  | some s =>
    let t := normalizeAnimal s
    if t = "dog" ∨ t = "cat" then Except.ok (some t)
    else Except.error ⟨"Invalid animal type. Allowed: dog, cat", none⟩

/-! ## Sample inputs used by the concrete claims -/

/-- The sensitive sample message of the specification. -/
def sampleSensitiveMessage : String :=
  "password=hunter2 failed at /home/user/app/api/x.py line 42"

/-- Ten-byte payload beginning with the JPEG signature FF D8 FF. -/
def jpegSamplePayload : List Nat := [0xff, 0xd8, 0xff, 0, 0, 0, 0, 0, 0, 0]

/-- Eight-byte payload beginning with RIFF but carrying no WEBP marker
at offset 8 (it has no ninth byte at all). -/
def riffNonWebpContent : List Nat := [0x52, 0x49, 0x46, 0x46, 0x78, 0x78, 0x78, 0x78]

/-! ## Helper lemmas -/

lemma lookup_mem {β : Type _} {k : String} {v : β} :
    ∀ {l : List (String × β)}, List.lookup k l = some v → (k, v) ∈ l := by
  intro l
  induction l with
  | nil => intro h; simp [List.lookup] at h
  | cons a t ih =>
    obtain ⟨a1, a2⟩ := a
    intro h
    rcases h1 : (k == a1) with _ | _ <;> simp only [List.lookup, h1] at h
    · exact List.mem_cons_of_mem _ (ih h)
    · obtain rfl := eq_of_beq h1
      obtain rfl : a2 = v := by simpa using h
      exact List.mem_cons_self _ _

lemma mem_alistSet {β : Type _} {k : String} {v : β} :
    ∀ {l : List (String × β)} {p : String × β},
      p ∈ alistSet k v l → p = (k, v) ∨ p ∈ l := by
  intro l
  induction l with
  | nil => intro p hp; simp [alistSet] at hp; exact Or.inl hp
  | cons a t ih =>
    intro p hp
    simp only [alistSet] at hp
    split at hp
    · rcases List.mem_cons.mp hp with h | h
      · exact Or.inl h
      · exact Or.inr (List.mem_cons_of_mem _ h)
    · rcases List.mem_cons.mp hp with h | h
      · exact Or.inr (h ▸ List.mem_cons_self _ _)
      · rcases ih h with h2 | h2
        · exact Or.inl h2
        · exact Or.inr (List.mem_cons_of_mem _ h2)

lemma lookup_alistErase_self {β : Type _} (k : String) (l : List (String × β)) :
    List.lookup k (alistErase k l) = none := by
  induction l with
  | nil => rfl
  | cons a t ih =>
    obtain ⟨a1, a2⟩ := a
    unfold alistErase at *
    rw [List.filter_cons]
    by_cases h : a1 = k
    · subst h; simpa using ih
    · have hne : (a1 != k) = true := by simpa using h
      rw [if_pos hne, List.lookup]
      have : (k == a1) = false := by simpa using Ne.symm h
      rw [this]
      exact ih

lemma mem_pruneCounts {ws : Int} {rc : List (String × List Int)} {p : String × List Int}
    (hp : p ∈ pruneCounts ws rc) :
    p.2 ≠ [] ∧ (∀ x ∈ p.2, ws < x) ∧ ∃ q ∈ rc, q.1 = p.1 ∧ ∀ x ∈ p.2, x ∈ q.2 := by
  unfold pruneCounts at hp
  rw [List.mem_filter] at hp
  obtain ⟨hmap, hne⟩ := hp
  rw [List.mem_map] at hmap
  obtain ⟨q, hq, rfl⟩ := hmap
  refine ⟨by simpa using hne, ?_, q, hq, rfl, ?_⟩
  · intro x hx
    have := List.of_mem_filter hx
    simpa using this
  · intro x hx
    exact List.mem_of_mem_filter hx

lemma countAndDecide_request_counts (lim : Nat) (client endpoint : String) (t : Int)
    (rc : List (String × List Int)) (bl : List (String × Int)) :
    (countAndDecide lim client endpoint t rc bl).2.1.request_counts =
      alistSet client ((List.lookup client rc).getD [] ++ [t]) rc := by
  unfold countAndDecide
  dsimp only
  split <;> rfl

/-- Claim C2: whenever a block entry for a client exists with expiry in
the future, `check_rate_limit` returns Blocked without appending the
timestamp to that window (any surviving timestamps for the client were
already stored) and without touching the block table; on the first check
after the expiry has passed the entry is deleted and the call behaves
exactly as on a state with no block entry for the client. -/
theorem claim_C2 (lim : Nat) (window : Int) (client endpoint : String) (t : Int)
    (st : RLState) (expiry : Int)
    (hb : List.lookup client st.blocked_ips = some expiry) :
    (t < expiry →
      check_rate_limit lim window client endpoint t st =
        (false, ⟨pruneCounts (t - window) st.request_counts, st.blocked_ips⟩, [])
      ∧ ∀ l, List.lookup client (pruneCounts (t - window) st.request_counts) = some l →
          ∃ v, (client, v) ∈ st.request_counts ∧ ∀ x ∈ l, x ∈ v)
    ∧ (expiry ≤ t →
      check_rate_limit lim window client endpoint t st =
        check_rate_limit lim window client endpoint t
          ⟨st.request_counts, alistErase client st.blocked_ips⟩) := by
  constructor
  · intro hlt
    constructor
    · unfold check_rate_limit
      rw [hb]
      simp [hlt]
    · intro l hl
      have hmem := lookup_mem hl
      obtain ⟨_, _, q, hq, hq1, hsub⟩ := mem_pruneCounts hmem
      refine ⟨q.2, ?_, hsub⟩
      have hq1a : q.1 = client := hq1
      have hq2 : (q.1, q.2) ∈ st.request_counts := by simpa using hq
      rw [hq1a] at hq2
      exact hq2
  · intro hge
    have hnlt : ¬ (t < expiry) := not_lt.mpr hge
    unfold check_rate_limit
    rw [hb, lookup_alistErase_self]
    simp [hnlt]

/-- Witness for claim C2 at a concrete blocked state: a request at time
50 against a block expiring at 100 is refused with the state untouched
apart from pruning, and a request at time 100 behaves as if the block
entry had been erased. -/
theorem claim_C2_witness :
    ((50 : Int) < 100 ∧
      check_rate_limit 100 3600 "a" "ep" 50 ⟨[("a", [5])], [("a", 100)]⟩ =
        (false, ⟨[("a", [(5 : Int)])], [("a", (100 : Int))]⟩, []))
    ∧ ((100 : Int) ≤ 100 ∧
      check_rate_limit 100 3600 "a" "ep" 100 ⟨[("a", [5])], [("a", 100)]⟩ =
        check_rate_limit 100 3600 "a" "ep" 100
          ⟨[("a", [5])], alistErase "a" [("a", 100)]⟩) := by
  constructor
  · refine ⟨by decide, ?_⟩
    have h := ((claim_C2 100 3600 "a" "ep" 50 ⟨[("a", [5])], [("a", 100)]⟩ 100
      (by decide)).1 (by decide)).1
    rw [h]
    decide
  · exact ⟨by decide, (claim_C2 100 3600 "a" "ep" 100 ⟨[("a", [5])], [("a", 100)]⟩ 100
      (by decide)).2 (by decide)⟩

/-- Claim C9: after every call to `check_rate_limit` (with a nonnegative
window), every timestamp stored in every window of the resulting state
is at least `now - window`, and no client with an empty timestamp list
remains in the request-counts table. -/
theorem claim_C9 (lim : Nat) (window : Int) (client endpoint : String) (t : Int)
    (st : RLState) (hw : 0 ≤ window) :
    ∀ p ∈ (check_rate_limit lim window client endpoint t st).2.1.request_counts,
      p.2 ≠ [] ∧ ∀ x ∈ p.2, t - window ≤ x := by
  have hprune : ∀ p ∈ pruneCounts (t - window) st.request_counts,
      p.2 ≠ [] ∧ ∀ x ∈ p.2, t - window ≤ x := by
    intro p hp
    obtain ⟨h1, h2, _⟩ := mem_pruneCounts hp
    exact ⟨h1, fun x hx => le_of_lt (h2 x hx)⟩
  have hcount : ∀ (bl : List (String × Int)),
      ∀ p ∈ (countAndDecide lim client endpoint t
        (pruneCounts (t - window) st.request_counts) bl).2.1.request_counts,
      p.2 ≠ [] ∧ ∀ x ∈ p.2, t - window ≤ x := by
    intro bl p hp
    rw [countAndDecide_request_counts] at hp
    rcases mem_alistSet hp with h | h
    · subst h
      constructor
      · exact List.append_ne_nil_of_right_ne_nil _ (by simp)
      · intro x hx
        rcases List.mem_append.mp hx with hx | hx
        · rcases hlk : List.lookup client (pruneCounts (t - window) st.request_counts) with
            _ | l
          · rw [hlk] at hx; simp at hx
          · rw [hlk] at hx
            have := (mem_pruneCounts (lookup_mem hlk)).2.1
            exact le_of_lt (this x hx)
        · obtain rfl : x = t := by simpa using hx
          omega
    · exact hprune p h
  unfold check_rate_limit
  rcases hb : List.lookup client st.blocked_ips with _ | expiry
  · exact hcount st.blocked_ips
  · dsimp only
    split
    · exact hprune
    · exact hcount (alistErase client st.blocked_ips)

/-- Witness for claim C9: a concrete call from a fresh client at time 0
under the default policy yields a state whose only window is the
singleton `[0]`, which is nonempty and within the window. -/
theorem claim_C9_witness :
    (0 : Int) ≤ 3600 ∧
      ∀ p ∈ (check_rate_limit 100 3600 "ip" "ep" 0 ⟨[], []⟩).2.1.request_counts,
        p.2 ≠ [] ∧ ∀ x ∈ p.2, (0 : Int) - 3600 ≤ x :=
  ⟨by decide, claim_C9 100 3600 "ip" "ep" 0 ⟨[], []⟩ (by decide)⟩

lemma check_step_no_block (lim : Nat) (client endpoint : String) (t : Int)
    (acc : List Int) (hkeep : ∀ x ∈ acc, t - 3600 < x) :
    check_rate_limit lim 3600 client endpoint t (stateOf client acc) =
      (if decide (acc.length + 1 > lim) then
        (false, ⟨[(client, acc ++ [t])], [(client, t + 3600)]⟩,
          [⟨"RATE_LIMIT_EXCEEDED", "HIGH", client, endpoint, acc.length + 1, lim⟩])
      else (true, stateOf client (acc ++ [t]), [])) := by
  cases acc with
  | nil =>
    simp only [check_rate_limit, stateOf, pruneCounts, countAndDecide, alistSet,
      List.lookup, List.isEmpty_nil, if_true, List.map_nil, List.filter_nil,
      List.length_nil, List.nil_append, Option.getD_none, List.length_cons]
    split <;> simp [stateOf]
  | cons a as =>
    have hfa : (a :: as).filter (fun ts => decide (t - 3600 < ts)) = a :: as :=
      List.filter_eq_self.mpr (fun x hx => decide_eq_true (hkeep x hx))
    simp only [check_rate_limit, stateOf, pruneCounts, countAndDecide, alistSet,
      List.isEmpty_cons, if_false, Bool.false_eq_true, List.map_cons, List.map_nil,
      List.filter_cons, hfa]
    simp only [List.lookup, beq_self_eq_true, Option.getD_some, List.isEmpty_cons,
      Bool.not_false, if_true, List.filter_nil, List.length_append,
      List.length_cons, List.length_nil]
    split <;> simp [stateOf, List.filter_cons, hfa]

lemma runCalls_append (lim : Nat) (window : Int) (client endpoint : String)
    (l1 l2 : List Int) (st : RLState) :
    runCalls lim window client endpoint (l1 ++ l2) st =
      ((runCalls lim window client endpoint l1 st).1
         ++ (runCalls lim window client endpoint l2
              (runCalls lim window client endpoint l1 st).2.1).1,
       (runCalls lim window client endpoint l2
         (runCalls lim window client endpoint l1 st).2.1).2.1,
       (runCalls lim window client endpoint l1 st).2.2
         ++ (runCalls lim window client endpoint l2
              (runCalls lim window client endpoint l1 st).2.1).2.2) := by
  induction l1 generalizing st with
  | nil => simp [runCalls]
  | cons t rest ih => simp [runCalls, ih, List.append_assoc]

lemma runCalls_allowed (client endpoint : String) (T : Int) :
    ∀ (pend acc : List Int),
      (∀ x ∈ acc, T ≤ x ∧ x < T + 3600) →
      (∀ x ∈ pend, T ≤ x ∧ x < T + 3600) →
      acc.length + pend.length ≤ 100 →
      runCalls 100 3600 client endpoint pend (stateOf client acc) =
        (List.replicate pend.length true, stateOf client (acc ++ pend), []) := by
  intro pend
  induction pend with
  | nil => intro acc _ _ _; simp [runCalls]
  | cons t rest ih =>
    intro acc hacc hpend hlen
    have hkeep : ∀ x ∈ acc, t - 3600 < x := by
      intro x hx
      have h1 := (hacc x hx).1
      have h2 := (hpend t (List.mem_cons_self _ _)).2
      omega
    have hle : ¬ (acc.length + 1 > 100) := by
      simp only [List.length_cons] at hlen
      omega
    rw [runCalls]
    rw [check_step_no_block 100 client endpoint t acc hkeep,
      if_neg (by simpa using hle)]
    have hallow : ∀ x ∈ acc ++ [t], T ≤ x ∧ x < T + 3600 := by
      intro x hx
      rcases List.mem_append.mp hx with hx | hx
      · exact hacc x hx
      · have hx2 : x = t := by simpa using hx
        rw [hx2]
        exact hpend t (List.mem_cons_self _ _)
    have hrest : ∀ x ∈ rest, T ≤ x ∧ x < T + 3600 :=
      fun x hx => hpend x (List.mem_cons_of_mem _ hx)
    have hlen2 : (acc ++ [t]).length + rest.length ≤ 100 := by
      simp only [List.length_append, List.length_cons, List.length_nil] at hlen ⊢
      omega
    rw [ih (acc ++ [t]) hallow hrest hlen2]
    simp [List.append_assoc, List.replicate_succ]

/-- Claim C1: from an empty limiter state, any 101 calls confined to one
window (all times within a band of width 3600) yield 100 Allowed results
followed by one Blocked result; the final call installs a block entry
expiring 3600 seconds later and emits the single RATE_LIMIT_EXCEEDED
audit event at severity HIGH with count 101 against limit 100; the
default `RateLimitError` carries HTTP status 429 and code RATE_LIMIT. -/
theorem claim_C1 (client endpoint : String) (T t : Int) (ts : List Int)
    (hlen : ts.length = 100)
    (hband : ∀ x ∈ ts ++ [t], T ≤ x ∧ x < T + 3600) :
    runCalls 100 3600 client endpoint (ts ++ [t]) ⟨[], []⟩ =
      (List.replicate 100 true ++ [false],
       ⟨[(client, ts ++ [t])], [(client, t + 3600)]⟩,
       [⟨"RATE_LIMIT_EXCEEDED", "HIGH", client, endpoint, 101, 100⟩])
    ∧ rateLimitErrorDefault.status_code = 429
    ∧ rateLimitErrorDefault.error_code = "RATE_LIMIT" := by
  refine ⟨?_, rfl, rfl⟩
  have hstart : (⟨[], []⟩ : RLState) = stateOf client [] := rfl
  rw [hstart, runCalls_append]
  have h1 := runCalls_allowed client endpoint T ts []
    (by simp) (fun x hx => hband x (List.mem_append_left _ hx)) (by simp [hlen])
  rw [h1]
  have hkeep : ∀ x ∈ ts, t - 3600 < x := by
    intro x hx
    have hx1 := (hband x (List.mem_append_left _ hx)).1
    have ht2 := (hband t (List.mem_append_right _ (List.mem_cons_self _ _))).2
    omega
  have hstep := check_step_no_block 100 client endpoint t ts hkeep
  rw [if_pos (by simp [hlen])] at hstep
  have hne : ts.isEmpty = false := by
    cases ts with
    | nil => simp at hlen
    | cons a as => rfl
  rw [runCalls]
  rw [show ([] : List Int) ++ ts = ts from rfl] at *
  rw [hstep]
  simp [runCalls, hlen, stateOf, hne]

/-- Witness for claim C1: 100 calls at time 0 followed by a 101st call
at time 0, all inside the band starting at 0. -/
theorem claim_C1_witness :
    ((List.replicate 100 (0 : Int)).length = 100
      ∧ ∀ x ∈ List.replicate 100 (0 : Int) ++ [(0 : Int)], (0 : Int) ≤ x ∧ x < 0 + 3600)
    ∧ runCalls 100 3600 "ip" "ep" (List.replicate 100 (0 : Int) ++ [(0 : Int)]) ⟨[], []⟩ =
      (List.replicate 100 true ++ [false],
       ⟨[("ip", List.replicate 100 (0 : Int) ++ [(0 : Int)])], [("ip", 0 + 3600)]⟩,
       [⟨"RATE_LIMIT_EXCEEDED", "HIGH", "ip", "ep", 101, 100⟩]) := by
  have hband : ∀ x ∈ List.replicate 100 (0 : Int) ++ [(0 : Int)],
      (0 : Int) ≤ x ∧ x < 0 + 3600 := by
    intro x hx
    rcases List.mem_append.mp hx with hx | hx
    · obtain rfl := List.eq_of_mem_replicate hx
      exact ⟨le_refl _, by omega⟩
    · obtain rfl : x = 0 := by simpa using hx
      exact ⟨le_refl _, by omega⟩
  exact ⟨⟨by simp, hband⟩,
    (claim_C1 "ip" "ep" 0 0 (List.replicate 100 (0 : Int)) (by simp) hband).1⟩

/-- Claim C6: for any exception outside the typed `APIError` hierarchy,
the envelope produced by `create_error_response` is exactly the fixed
internal-error dictionary (error: Internal server error, error_code:
INTERNAL_ERROR, status_code 500) with transport status 500, and the
envelope does not depend on the text of the exception in any way. -/
theorem claim_C6 (msg : String) (request_id : Option String) (timestamp : String) :
    create_error_response (Exc.other msg) request_id timestamp =
      ([("error", JVal.s "Internal server error"),
        ("error_code", JVal.s "INTERNAL_ERROR"),
        ("status_code", JVal.n 500)]
        ++ (if optTruthy request_id then
              [("request_id", JVal.s (request_id.getD ""))]
            else [])
        ++ [("timestamp", JVal.s timestamp)], 500)
    ∧ (∀ msg2 : String,
        create_error_response (Exc.other msg) request_id timestamp =
          create_error_response (Exc.other msg2) request_id timestamp) := by
  constructor
  · unfold create_error_response
    dsimp only
    split <;> simp
  · intro msg2
    rfl

/-- Counterexample to claim C8: the global 404 handler builds its
envelope with no request id, and the resulting envelope has no
request_id key at all. -/
theorem claim_C8_counterexample :
    List.lookup "request_id" (not_found_handler "2025-01-01T00:00:00").1 = none := by
  decide

/-- Claim C8 as amended: every envelope produced by
`create_error_response` carries the error, error_code, status_code and
timestamp keys, the transport status equals the status_code value in the
envelope, and the optional field key appears exactly for a validation
error with a known field; the request_id key, however, appears if and
only if a non-empty request id was supplied (the global Flask handlers
supply none, so their envelopes lack it). -/
theorem claim_C8_amended (err : Exc) (request_id : Option String) (timestamp : String) :
    (List.lookup "error" (create_error_response err request_id timestamp).1).isSome = true
    ∧ (List.lookup "error_code" (create_error_response err request_id timestamp).1).isSome
        = true
    ∧ List.lookup "status_code" (create_error_response err request_id timestamp).1 =
        some (JVal.n (create_error_response err request_id timestamp).2)
    ∧ List.lookup "timestamp" (create_error_response err request_id timestamp).1 =
        some (JVal.s timestamp)
    ∧ List.lookup "request_id" (create_error_response err request_id timestamp).1 =
        (if optTruthy request_id then some (JVal.s (request_id.getD "")) else none)
    ∧ (List.lookup "field" (create_error_response err request_id timestamp).1).isSome
        = fieldExpected err := by
  cases err with
  | api e =>
    by_cases hf : e.kind = ErrKind.validationKind ∧ optTruthy e.field = true
    · by_cases hr : optTruthy request_id = true <;>
        simp [create_error_response, fieldExpected, List.lookup, hf, hf.1, hf.2, hr]
    · by_cases hk : e.kind = ErrKind.validationKind
      · have hfb : optTruthy e.field = false := by
          cases h2 : optTruthy e.field
          · rfl
          · exact absurd ⟨hk, h2⟩ hf
        by_cases hr : optTruthy request_id = true <;>
          simp [create_error_response, fieldExpected, List.lookup, hf, hk, hfb, hr]
      · by_cases hr : optTruthy request_id = true <;>
          simp [create_error_response, fieldExpected, List.lookup, hf, hk, hr]
  | other msg =>
    by_cases hr : optTruthy request_id = true <;>
      simp [create_error_response, fieldExpected, List.lookup, hr]

/-- Counterexample to claim C3: on the sample message, the sanitized
output still contains the substring /home/user, because the path pattern
only matches two slash-separated segments ending in .py and therefore
replaces only the trailing /api/x.py part. -/
theorem claim_C3_counterexample :
    containsSub "/home/user".toList
      (sanitize_error_message sampleSensitiveMessage).toList = true := by
  decide

/-- Claim C3 as amended: sanitizing the sample message yields exactly
the string in which the password value, the trailing two path segments
and the line reference are replaced; the output contains no occurrence
of hunter2 and none of line 42, but the path prefix /home/user/app
remains. -/
theorem claim_C3_amended :
    sanitize_error_message sampleSensitiveMessage =
      "[REDACTED] failed at /home/user/app[REDACTED] [REDACTED]"
    ∧ containsSub "hunter2".toList
        (sanitize_error_message sampleSensitiveMessage).toList = false
    ∧ containsSub "line 42".toList
        (sanitize_error_message sampleSensitiveMessage).toList = false
    ∧ containsSub "/api/x.py".toList
        (sanitize_error_message sampleSensitiveMessage).toList = false := by
  refine ⟨by decide, by decide, by decide, by decide⟩

/-- Claim C4, behavior of the code at the failing input: content that
starts with RIFF and has no WEBP marker (it is only 8 bytes long) is
detected as image/webp and fully accepted by `validate_image_file` under
the name a.webp, although the claim (and the actual WEBP container
format) requires such content to be rejected. -/
theorem claim_C4_code_behavior :
    detectImageType riffNonWebpContent = some "image/webp"
    ∧ validate_image_file "a.webp" riffNonWebpContent =
        Except.ok ("a.webp", riffNonWebpContent)
    ∧ [0x57, 0x45, 0x42, 0x50].isPrefixOf (riffNonWebpContent.drop 8) = false := by
  refine ⟨rfl, rfl, by decide⟩

/-- Claim C5: the ten-byte JPEG-signature payload is accepted under the
name a.jpg (returning the filename and content) and rejected under the
name a.png; in general, whenever the extension of the (sanitized)
filename is not in the extension set associated with the detected
signature, `validate_image_file` does not accept the file. -/
theorem claim_C5 :
    validate_image_file "a.jpg" jpegSamplePayload =
      Except.ok ("a.jpg", jpegSamplePayload)
    ∧ validate_image_file "a.png" jpegSamplePayload =
        Except.error ⟨"File extension does not match content type", none⟩
    ∧ (∀ (fn fn2 : String) (content : List Nat) (t : String) (exts : List String),
        sanitize_string fn 255 false = Except.ok fn2 →
        detectImageType content = some t →
        List.lookup t expected_extensions = some exts →
        fileExt fn2 ∉ exts →
        ∀ r, validate_image_file fn content ≠ Except.ok r) := by
  refine ⟨rfl, rfl, ?_⟩
  intro fn fn2 content t exts hsan hdet hlk hnotin r hok
  unfold validate_image_file at hok
  rw [hsan, hdet] at hok
  dsimp only at hok
  rw [hlk] at hok
  dsimp only at hok
  split at hok
  · exact Except.noConfusion hok
  · split at hok
    · exact Except.noConfusion hok
    · split at hok
      · exact Except.noConfusion hok
      · split at hok
        · exact Except.noConfusion hok
        · split at hok
          · exact Except.noConfusion hok
          · rename_i hcond
            have hc : exts.contains (fileExt fn2) = true := by
              cases hcc : exts.contains (fileExt fn2)
              · have hb : (!exts.contains (fileExt fn2)) = true := by rw [hcc]; rfl
                exact absurd hb hcond
              · rfl
            exact hnotin (by simpa using hc)

/-- Witness for claim C5: the general mismatch statement applied to the
concrete a.png filename over the JPEG payload. -/
theorem claim_C5_witness :
    validate_image_file "a.png" jpegSamplePayload ≠
      Except.ok (("a.png" : String), jpegSamplePayload) :=
  claim_C5.2.2 "a.png" "a.png" jpegSamplePayload "image/jpeg" ["jpg", "jpeg"]
    rfl rfl rfl (by decide) ("a.png", jpegSamplePayload)

lemma head?_dropWhile_not (p : Char → Bool) :
    ∀ (x : List Char) (a : Char), (x.dropWhile p).head? = some a → p a = false := by
  intro x
  induction x with
  | nil => intro a h; simp [List.dropWhile] at h
  | cons b t ih =>
    intro a h
    simp only [List.dropWhile] at h
    split at h
    · exact ih a h
    · rename_i hb
      obtain rfl : b = a := by simpa using h
      simpa using hb

lemma dropWhile_eq_self_of_head? (p : Char → Bool) (x : List Char)
    (hx : ∀ a, x.head? = some a → p a = false) : x.dropWhile p = x := by
  cases x with
  | nil => rfl
  | cons b t =>
    have hb := hx b rfl
    simp [List.dropWhile, hb]

lemma mem_pyStrip {c : Char} {l : List Char} (h : c ∈ pyStrip l) : c ∈ l := by
  unfold pyStrip at h
  have h1 := (List.dropWhile_suffix (l := (l.reverse.dropWhile isStripSpace).reverse)
    isStripSpace).subset h
  rw [List.mem_reverse] at h1
  have h2 := (List.dropWhile_suffix (l := l.reverse) isStripSpace).subset h1
  rwa [List.mem_reverse] at h2

lemma pyStrip_idem (l : List Char) : pyStrip (pyStrip l) = pyStrip l := by
  unfold pyStrip
  obtain ⟨pre, hpre⟩ :=
    List.dropWhile_suffix (l := (l.reverse.dropWhile isStripSpace).reverse) isStripSpace
  set B := l.reverse.dropWhile isStripSpace with hB
  set A := B.reverse.dropWhile isStripSpace with hA
  have hobs : B = A.reverse ++ pre.reverse := by
    have h2 := congrArg List.reverse hpre
    simpa [List.reverse_append] using h2.symm
  have hstep1 : A.reverse.dropWhile isStripSpace = A.reverse := by
    apply dropWhile_eq_self_of_head?
    intro a ha
    rcases hAr : A.reverse with _ | ⟨c, cs⟩
    · rw [hAr] at ha; simp at ha
    · rw [hAr] at ha
      obtain rfl : c = a := by simpa using ha
      apply head?_dropWhile_not isStripSpace l.reverse c
      rw [← hB, hobs, hAr]
      rfl
  rw [hstep1, List.reverse_reverse, hA, List.dropWhile_idempotent]

/-- Claim C7: `sanitize_string` is idempotent on its successful results:
whenever it returns a value, running it again with the same maximum
length and special-character flag returns the very same value. -/
theorem claim_C7 (value : String) (max_length : Nat) (allow_special : Bool) (r : String)
    (h : sanitize_string value max_length allow_special = Except.ok r) :
    sanitize_string r max_length allow_special = Except.ok r := by
  unfold sanitize_string at h
  dsimp only at h
  split at h
  · exact Except.noConfusion h
  · split at h
    · exact Except.noConfusion h
    · rename_i hlen hspec
      obtain rfl : String.mk (pyStrip (value.toList.filter keepChar)) = r := by
        simpa using h
      have htl : (String.mk (pyStrip (value.toList.filter keepChar))).toList =
          pyStrip (value.toList.filter keepChar) := rfl
      have hfilter : (pyStrip (value.toList.filter keepChar)).filter keepChar =
          pyStrip (value.toList.filter keepChar) := by
        apply List.filter_eq_self.mpr
        intro a ha
        exact List.of_mem_filter (mem_pyStrip ha)
      unfold sanitize_string
      simp only [htl, hfilter, pyStrip_idem]
      rw [if_neg hlen, if_neg hspec]

/-- Witness for claim C7: sanitizing the already-clean result of
sanitizing a padded string leaves it unchanged. -/
theorem claim_C7_witness :
    sanitize_string " abc " 255 false = Except.ok "abc"
    ∧ sanitize_string "abc" 255 false = Except.ok "abc" :=
  ⟨rfl, claim_C7 " abc " 255 false "abc" rfl⟩

/-- Claim C10: `validate_animal_type` accepts a null filter unchanged;
a non-null value is lowercased and stripped and accepted exactly when
the normalized value is dog or cat (returning the normalized value),
every other value raising the fixed `ValidationError`. -/
theorem claim_C10 :
    validate_animal_type none = Except.ok none
    ∧ (∀ s : String, (normalizeAnimal s = "dog" ∨ normalizeAnimal s = "cat") →
        validate_animal_type (some s) = Except.ok (some (normalizeAnimal s)))
    ∧ (∀ s : String, normalizeAnimal s ≠ "dog" → normalizeAnimal s ≠ "cat" →
        validate_animal_type (some s) =
          Except.error ⟨"Invalid animal type. Allowed: dog, cat", none⟩) := by
  refine ⟨rfl, ?_, ?_⟩
  · intro s hs
    unfold validate_animal_type
    dsimp only
    rw [if_pos hs]
  · intro s h1 h2
    unfold validate_animal_type
    dsimp only
    rw [if_neg]
    rintro (h | h)
    · exact h1 h
    · exact h2 h

/-- Witness for claim C10: a padded mixed-case dog value is normalized
and accepted, and an unknown animal is rejected. -/
theorem claim_C10_witness :
    validate_animal_type (some "Dog ") = Except.ok (some "dog")
    ∧ validate_animal_type (some "bird") =
        Except.error ⟨"Invalid animal type. Allowed: dog, cat", none⟩ := by
  constructor
  · exact (claim_C10.2.1 "Dog " (Or.inl rfl)).trans rfl
  · exact claim_C10.2.2 "bird" (by decide) (by decide)

end PetDetective
